import Mathlib

/-!
Verification development for the MasPhD realtime rail-prediction pipeline.

The Python sources are embedded shallowly:

* Python strings are Lean `String`s; character-level helpers (`pyStrip`,
  `pySplit`, `pyInt`) model `str.strip`, `str.split` and `int()` for the
  ASCII inputs the pipeline handles.
* `datetime.time` values become `PyTime`; `datetime` instants become a
  linear timeline of rational minutes (all callers pass one fixed zone, so
  aware/naive juggling in the sources is the identity on this timeline).
* Python floats become `ℚ`: the claims under study concern control flow and
  exact small arithmetic, not rounding.
* Fallible code returns `Option`; SQLite tables become lists of rows with
  the documented `INSERT OR IGNORE` / `ON CONFLICT DO UPDATE` semantics,
  including the fact that SQL `NULL`s are pairwise distinct inside a
  `UNIQUE` index.
-/

namespace MasPhD

/-! ## Python character/string primitives -/

/-- ASCII decimal digit test, matching `str.isdigit` on ASCII input. -/
def isAsciiDigit (c : Char) : Bool :=
  48 ≤ c.toNat && c.toNat ≤ 57

/-- Numeric value of an ASCII digit. -/
def digitVal (c : Char) : Nat :=
  c.toNat - 48

/-- Python whitespace characters stripped by `str.strip()` (ASCII subset). -/
def isPyWs (c : Char) : Bool :=
  c = ' ' || c = '\t' || c = '\n' || c = '\r' || c = Char.ofNat 11 || c = Char.ofNat 12

/-- Model of `str.strip()`: drop whitespace from both ends. -/
def pyStrip (l : List Char) : List Char :=
  ((l.dropWhile isPyWs).reverse.dropWhile isPyWs).reverse

/-- Model of `str.split(sep)` for a one-character separator: always returns a
non-empty list of (possibly empty) parts. -/
def pySplit (sep : Char) : List Char → List (List Char)
  | [] => [[]]
  | c :: rest =>
    match pySplit sep rest with
    | [] => [[]]
    | cur :: parts => if c = sep then [] :: cur :: parts else (c :: cur) :: parts

/-- Digit-sequence body of Python `int()`: digits with single underscores
allowed between digits, accumulating the value. -/
def pyDigitsAux (acc : Nat) : List Char → Option Nat
  | [] => some acc
  | c :: rest =>
    if isAsciiDigit c then pyDigitsAux (acc * 10 + digitVal c) rest
    else if c = '_' then
      match rest with
      | [] => none
      | c2 :: rest2 =>
        if isAsciiDigit c2 then pyDigitsAux (acc * 10 + digitVal c2) rest2 else none
    else none

/-- Value of a non-empty digit string (underscores between digits allowed,
never leading). -/
def pyDigitsVal : List Char → Option Nat
  | [] => none
  | c :: rest => if isAsciiDigit c then pyDigitsAux (digitVal c) rest else none

/-- Model of Python `int(s)` on ASCII input: surrounding whitespace, an
optional sign, then digits; `none` models `ValueError`. -/
def pyInt (l : List Char) : Option Int :=
  match pyStrip l with
  | [] => none
  | c :: rest =>
    if c = '+' then (pyDigitsVal rest).map Int.ofNat
    else if c = '-' then (pyDigitsVal rest).map (fun n => -(n : Int))
    else (pyDigitsVal (c :: rest)).map Int.ofNat

/-- Python truthiness of an optional string: `None` and `""` are falsy. -/
def truthy : Option String → Bool
  | none => false
  | some s => s ≠ ""

/-! ## `masphd.darwin.time_utils` -/

/-- Result of `datetime.time(...)`: a validated wall-clock time of day. -/
structure PyTime where
  hour : Nat
  minute : Nat
  second : Nat
deriving DecidableEq

/-- The `datetime.time` constructor: raises (`none`) outside the valid
ranges. -/
def time_mk (h m s : Int) : Option PyTime :=
  if 0 ≤ h ∧ h ≤ 23 ∧ 0 ≤ m ∧ m ≤ 59 ∧ 0 ≤ s ∧ s ≤ 59 then
    some ⟨h.toNat, m.toNat, s.toNat⟩
  else none

/-- `parse_hms` from `time_utils.py`: accepts `HH:MM` and `HH:MM:SS`
(via `split(":")` into 2 or 3 parts); every other input yields `none`. -/
def parse_hms (value : Option String) : Option PyTime :=
  match value with
  | none => none
  | some v =>
    if v = "" then none
    else
      let s := pyStrip v.data
      if s = [] then none
      else
        match pySplit ':' s with
        | [hh, mm] =>
          (pyInt hh).bind fun h => (pyInt mm).bind fun m => time_mk h m 0
        | [hh, mm, ss] =>
          (pyInt hh).bind fun h => (pyInt mm).bind fun m =>
            (pyInt ss).bind fun sec => time_mk h m sec
        | _ => none

/-- Gregorian leap-year test. -/
def isLeap (y : Nat) : Bool :=
  y % 4 = 0 && (y % 100 ≠ 0 || y % 400 = 0)

/-- Days in a month of the proleptic Gregorian calendar. -/
def daysInMonth (y m : Nat) : Nat :=
  if m = 2 then (if isLeap y then 29 else 28)
  else if m = 4 ∨ m = 6 ∨ m = 9 ∨ m = 11 then 30
  else 31

/-- Days since the Unix epoch of a Gregorian date (standard civil-date
algorithm, valid for years ≥ 1). -/
def daysFromCivil (y m d : Nat) : Int :=
  let y2 := if m ≤ 2 then y - 1 else y
  let era := y2 / 400
  let yoe := y2 % 400
  let mp := if m > 2 then m - 3 else m + 9
  let doy := (153 * mp + 2) / 5 + d - 1
  let doe := yoe * 365 + yoe / 4 - yoe / 100 + doy
  (era * 146097 + doe : Int) - 719468

/-- All-ASCII-digit test for a character list. -/
def allDigits (l : List Char) : Bool :=
  l.all isAsciiDigit

/-- Plain value of an all-digit string. -/
def digitsToNat (l : List Char) : Nat :=
  l.foldl (fun acc c => acc * 10 + digitVal c) 0

/-- `datetime.strptime(ssd, "%Y-%m-%d").date()`: a 4-digit year, a 1–2 digit
month and day, and a valid calendar date (year ≥ 1). -/
def parse_date (s : String) : Option (Nat × Nat × Nat) :=
  match pySplit '-' s.data with
  | [ys, ms, ds] =>
    if allDigits ys && ys.length = 4 && allDigits ms && (ms.length = 1 || ms.length = 2)
        && allDigits ds && (ds.length = 1 || ds.length = 2) then
      let y := digitsToNat ys
      let m := digitsToNat ms
      let d := digitsToNat ds
      if 1 ≤ y ∧ 1 ≤ m ∧ m ≤ 12 ∧ 1 ≤ d ∧ d ≤ daysInMonth y m then some (y, m, d)
      else none
    else none
  | _ => none

/-- Minutes-of-day of a `PyTime`, with seconds as a fractional part. -/
def timeMinutes (t : PyTime) : ℚ :=
  t.hour * 60 + t.minute + (t.second : ℚ) / 60

/-- `combine_date_time(ssd, t)`: parse the clock string, parse the service
start date, and place the result on the linear minute timeline. The `tz`
argument of the source only attaches a zone and does not move the instant. -/
def combine_date_time (ssd : String) (t : Option String) : Option ℚ :=
  match parse_hms t with
  | none => none
  | some tt =>
    match parse_date ssd with
    | none => none
    | some (y, m, d) => some (1440 * (daysFromCivil y m d : ℚ) + timeMinutes tt)

/-- `combine_date_time_smart(ssd, t, base_dt=...)`: as `combine_date_time`,
but when the result is earlier than `base_dt` by strictly more than the
2-hour rollover threshold, advance it by one day. -/
def combine_date_time_smart (ssd : String) (t : Option String) (base_dt : Option ℚ) : Option ℚ :=
  match combine_date_time ssd t with
  | none => none
  | some dt =>
    match base_dt with
    | none => some dt
    | some b =>
      if dt < b then
        if b - dt > 120 then some (dt + 1440) else some dt
      else some dt

/-- `diff_minutes_wrap(planned, actual)`: minutes between two instants with
the ±1440 wrap adjustment applied once in each direction. -/
def diff_minutes_wrap (planned actual : Option ℚ) : Option ℚ :=
  match planned, actual with
  | some p, some a =>
    let minutes : ℚ := a - p
    let minutes := if minutes > 1200 then minutes - 1440 else minutes
    let minutes := if minutes < -1200 then minutes + 1440 else minutes
    some minutes
  | _, _ => none

/-! ## `masphd.models.ensemble` -/

/-- Python `dict.get` over an association list with unique keys (dict
iteration order is insertion order). -/
def lookupDict {α : Type} (d : List (String × α)) (k : String) : Option α :=
  (d.find? (fun kv => kv.1 == k)).map (fun kv => kv.2)

/-- `WeightedEnsemblePredictor.predict_one`. The weights are the loaded
`{"FIRST_SECOND": {model: weight}}` map; `modelPred first second name` is the
scalar `pipe.predict(X_row)[0]` of the successfully loaded sub-model (model
loading failures raise in the source and are outside this claim). An absent
or empty weight dict returns `none` (`if not wdict`); otherwise the weighted
sum is normalized only when the total weight is strictly positive. -/
def predict_one (weights : List (String × List (String × ℚ)))
    (modelPred : String → String → String → ℚ) (first second : String) : Option ℚ :=
  match lookupDict weights (first ++ "_" ++ second) with
  | none => none
  | some [] => none
  | some (w0 :: wrest) =>
    let wdict := w0 :: wrest
    let weighted_pred := (wdict.map (fun mw => mw.2 * modelPred first second mw.1)).sum
    let total_w := (wdict.map (fun mw => mw.2)).sum
    some (if total_w > 0 then weighted_pred / total_w else weighted_pred)

/-! ## `masphd.darwin.station_pairs` -/

/-- The ordered tracked route segments (TIPLOC2 codes), verbatim from the
source. -/
def STATION_PAIRS : List (String × String) :=
  [("WEYMTH", "UPWEY"),
   ("UPWEY", "DRCHS"),
   ("DRCHS", "WOOL"),
   ("WOOL", "WARHAM"),
   ("WARHAM", "HMWTHY"),
   ("HMWTHY", "POOLE"),
   ("POOLE", "PSTONE"),
   ("PSTONE", "BRANKSM"),
   ("BRANKSM", "BOMO"),
   ("BOMO", "POKSDWN"),
   ("POKSDWN", "CHRISTC"),
   ("CHRISTC", "NMILTON"),
   ("NMILTON", "BKNHRST"),
   ("BKNHRST", "SOTON"),
   ("SOTON", "SOTPKWY"),
   ("SOTPKWY", "WNCHSTR"),
   ("WNCHSTR", "BSNGSTK"),
   ("BSNGSTK", "CLPHMJM"),
   ("CLPHMJM", "WATRLMN")]

/-! ## `masphd.darwin.extract_segments` -/

/-- A decoded forecast location: the `TS/Location` attributes and sub-element
texts the extractor consults, each an optional string exactly as produced by
`dict.get`. -/
structure Loc where
  rid : Option String := none
  ssd : Option String := none
  tpl : Option String := none
  pta : Option String := none
  ptd : Option String := none
  wta : Option String := none
  wtd : Option String := none
  eta : Option String := none
  etd : Option String := none
  ata : Option String := none
  atd : Option String := none
  arr_at : Option String := none
  arr_et : Option String := none
  arr_wet : Option String := none
  dep_at : Option String := none
  dep_et : Option String := none
deriving DecidableEq

/-- A decoded schedule endpoint row; `typ` models the source key `type`
(`"OR"` or `"DT"`). -/
structure Sched where
  tpl : Option String := none
  typ : Option String := none
deriving DecidableEq

/-- `_first_non_empty(loc, keys)`: the first truthy (present and non-empty)
value of the listed fields. -/
def firstNonEmpty : List (Option String) → Option String
  | [] => none
  | v :: rest =>
    match v with
    | some s => if s ≠ "" then some s else firstNonEmpty rest
    | none => firstNonEmpty rest

/-- `_build_tpl_index`: `tpl -> location`, last occurrence wins, rows with a
falsy `tpl` are skipped. -/
def build_tpl_index (forecasts : List Loc) (code : String) : Option Loc :=
  (forecasts.filter (fun r => r.tpl == some code && code != "")).getLast?

/-- `_pick_planned_arr`. -/
def pick_planned_arr (loc : Loc) : Option String :=
  firstNonEmpty [loc.pta, loc.wta]

/-- `_pick_confirmed_actual_dep`. -/
def pick_confirmed_actual_dep (loc : Loc) : Option String :=
  firstNonEmpty [loc.atd, loc.dep_at]

/-- `_pick_estimated_dep`. -/
def pick_estimated_dep (loc : Loc) : Option String :=
  firstNonEmpty [loc.etd, loc.dep_et]

/-- `_pick_working_dep`. -/
def pick_working_dep (loc : Loc) : Option String :=
  firstNonEmpty [loc.wtd]

/-- `_pick_planned_dep`: the second (surviving) definition in the source
consults `ptd` only. -/
def pick_planned_dep (loc : Loc) : Option String :=
  firstNonEmpty [loc.ptd]

/-- `_schedule_endpoints`: `(origin, dest)` from the `OR`/`DT` rows; rows
with a falsy `tpl` or `type` are skipped, the last occurrence wins. -/
def schedule_endpoints (schedules : List Sched) : Option String × Option String :=
  schedules.foldl
    (fun acc r =>
      match r.tpl, r.typ with
      | some tpl, some t =>
        if tpl = "" ∨ t = "" then acc
        else if t = "OR" then (some tpl, acc.2)
        else if t = "DT" then (acc.1, some tpl)
        else acc
      | _, _ => acc)
    (none, none)

/-- `_rid_matches_station_pairs_direction`: `some` of the endpoint check when
both endpoints are present, `none` when either is missing (or the route is
empty). -/
def rid_matches_station_pairs_direction (schedules : List Sched) : Option Bool :=
  match STATION_PAIRS, STATION_PAIRS.getLast? with
  | [], _ => none
  | _ :: _, none => none
  | (required_origin, _) :: _, some (_, required_dest) =>
    match schedule_endpoints schedules with
    | (none, _) => none
    | (_, none) => none
    | (some origin, some dest) => some (origin = required_origin ∧ dest = required_dest)

/-- Loop body of `_is_reverse_by_vote`: fold over the tracked pairs carrying
the two vote counters; the `delta <= -10` hard reject is the early `return
True` of the source. -/
def is_reverse_by_vote_aux (byTpl : String → Option Loc) :
    List (String × String) → Nat → Nat → Bool
  | [], forward_votes, reverse_votes =>
    if forward_votes + reverse_votes ≥ 2 then decide (reverse_votes > forward_votes) else false
  | (a, b) :: rest, forward_votes, reverse_votes =>
    match byTpl a, byTpl b with
    | some la, some lb =>
      let dep_s := firstNonEmpty [la.ptd, la.wtd, la.dep_et, la.dep_at]
      let arr_s := firstNonEmpty [lb.pta, lb.wta, lb.arr_et, lb.arr_wet, lb.arr_at]
      match parse_hms dep_s, parse_hms arr_s with
      | some dep_t, some arr_t =>
        let dep_min : ℚ := dep_t.hour * 60 + dep_t.minute + (dep_t.second : ℚ) / 60
        let arr_min : ℚ := arr_t.hour * 60 + arr_t.minute + (arr_t.second : ℚ) / 60
        let delta := arr_min - dep_min
        let delta := if delta < -720 then delta + 1440 else delta
        if delta < 0 then
          if delta ≤ -10 then true
          else is_reverse_by_vote_aux byTpl rest forward_votes (reverse_votes + 1)
        else is_reverse_by_vote_aux byTpl rest (forward_votes + 1) reverse_votes
      | _, _ => is_reverse_by_vote_aux byTpl rest forward_votes reverse_votes
    | _, _ => is_reverse_by_vote_aux byTpl rest forward_votes reverse_votes

/-- `_is_reverse_by_vote`: the schedule-free fallback direction vote. -/
def is_reverse_by_vote (byTpl : String → Option Loc) : Bool :=
  is_reverse_by_vote_aux byTpl STATION_PAIRS 0 0

/-- One extracted segment record, with the fields the pipeline consumes. -/
structure SegRecord where
  rid : Option String
  ssd : Option String
  first : String
  second : String
  planned_dep : Option String
  planned_arr : Option String
  dep_time_for_prediction : Option String
  dep_time_kind : String
  has_actual_dep : Bool
  actual_dep_confirmed : Option String
  departure_delay_min : Option ℚ
  arrival_delay_min : Option ℚ
  dwell_delay_min : Option ℚ
  loc_first : Loc
  loc_second : Loc
deriving DecidableEq

/-- Body of the per-pair loop of `extract_segments`: `none` when either
location is missing from the forecast index (the `continue`), otherwise the
record built exactly as in the source. -/
def mkSegmentRecord (first_station : Option String) (rid ssd : Option String)
    (byTpl : String → Option Loc) (a_code b_code : String) : Option SegRecord :=
  match byTpl a_code, byTpl b_code with
  | some loc_a, some loc_b =>
    let planned_dep := firstNonEmpty [loc_a.ptd, loc_a.wtd]
    let actual_dep_confirmed := pick_confirmed_actual_dep loc_a
    let has_actual_dep := actual_dep_confirmed.isSome
    let dep_estimate := pick_estimated_dep loc_a
    let dep_working := pick_working_dep loc_a
    let dep_choice : Option String × String :=
      if has_actual_dep then (actual_dep_confirmed, "actual")
      else if dep_estimate.isSome then (dep_estimate, "estimate")
      else if dep_working.isSome then (dep_working, "estimate")
      else
        let p := pick_planned_dep loc_a
        (p, if p.isSome then "estimate" else "missing")
    let dep_time_for_prediction := dep_choice.1
    let dep_time_kind := dep_choice.2
    let planned_dep_dt :=
      if truthy ssd && truthy planned_dep then
        combine_date_time_smart (ssd.getD "") planned_dep none
      else none
    let dep_pred_dt :=
      if truthy ssd && truthy dep_time_for_prediction && planned_dep_dt.isSome then
        combine_date_time_smart (ssd.getD "") dep_time_for_prediction planned_dep_dt
      else none
    let departure_delay_min := diff_minutes_wrap planned_dep_dt dep_pred_dt
    let planned_arr_a := pick_planned_arr loc_a
    let actual_arr_confirmed := firstNonEmpty [loc_a.ata, loc_a.arr_at]
    let arr_estimate := firstNonEmpty [loc_a.arr_et, loc_a.arr_wet]
    let arr_time_for_dwell :=
      match actual_arr_confirmed with
      | some s => some s
      | none => arr_estimate
    let planned_arr_a_dt :=
      if truthy ssd && truthy planned_arr_a && planned_dep_dt.isSome then
        combine_date_time_smart (ssd.getD "") planned_arr_a planned_dep_dt
      else none
    let arr_dwell_dt :=
      if truthy ssd && truthy arr_time_for_dwell && planned_dep_dt.isSome then
        combine_date_time_smart (ssd.getD "") arr_time_for_dwell planned_dep_dt
      else none
    let arrival_delay_min := diff_minutes_wrap planned_arr_a_dt arr_dwell_dt
    let dwell_delay_min :=
      if first_station = some a_code then departure_delay_min
      else
        match departure_delay_min, arrival_delay_min with
        | some dd, some ad => some (dd - ad)
        | _, _ => none
    some
      { rid := rid
        ssd := ssd
        first := a_code
        second := b_code
        planned_dep := planned_dep
        planned_arr := planned_arr_a
        dep_time_for_prediction := dep_time_for_prediction
        dep_time_kind := dep_time_kind
        has_actual_dep := has_actual_dep
        actual_dep_confirmed := actual_dep_confirmed
        departure_delay_min := departure_delay_min
        arrival_delay_min := arrival_delay_min
        dwell_delay_min := dwell_delay_min
        loc_first := loc_a
        loc_second := loc_b }
  | _, _ => none

/-- `extract_segments(forecasts, schedules, drop_wrong_direction=...)`: empty
on no forecasts; direction check via schedule endpoints with the reverse-vote
fallback; then one record per tracked pair with both locations present. The
`tz` argument only decorates instants and is dropped on the linear
timeline. -/
def extract_segments (forecasts : List Loc) (schedules : List Sched)
    (drop_wrong_direction : Bool) : List SegRecord :=
  match forecasts with
  | [] => []
  | f0 :: _ =>
    let rid := f0.rid
    let ssd := f0.ssd
    let byTpl := build_tpl_index forecasts
    let dir_ok : Bool :=
      if drop_wrong_direction then
        match rid_matches_station_pairs_direction schedules with
        | some false => false
        | some true => true
        | none => !(is_reverse_by_vote byTpl)
      else true
    if dir_ok then
      let first_station :=
        match STATION_PAIRS with
        | [] => none
        | (a, _) :: _ => some a
      STATION_PAIRS.filterMap (fun p => mkSegmentRecord first_station rid ssd byTpl p.1 p.2)
    else []

/-! ## `masphd.darwin.realtime_filter` -/

/-- The keys of a segment dict that `filter_segments_by_now` consults
(`ssd`, `planned_dep` and the orchestrator-stashed `planned_arr_second`);
other keys of the segment dict are never read by the filter. -/
structure FilterSeg where
  ssd : Option String := none
  planned_dep : Option String := none
  planned_arr_second : Option String := none
deriving DecidableEq

/-- `_planned_dep_dt`. -/
def planned_dep_dt (seg : FilterSeg) : Option ℚ :=
  if truthy seg.ssd && truthy seg.planned_dep then
    combine_date_time_smart (seg.ssd.getD "") seg.planned_dep none
  else none

/-- `_planned_arr_dt`; `base` is the stashed `_planned_dep_dt_for_filter`. -/
def planned_arr_dt (seg : FilterSeg) (base : Option ℚ) : Option ℚ :=
  if truthy seg.ssd && truthy seg.planned_arr_second then
    combine_date_time_smart (seg.ssd.getD "") seg.planned_arr_second base
  else none

/-- The `mode="in_progress"` arm of `filter_segments_by_now`: keep a segment
when its planned departure and destination planned arrival both resolve and
`dep_dt ≤ now + dep_grace` and `arr_dt ≥ now - arr_grace`. Segments whose
times do not resolve are skipped. -/
def filter_segments_in_progress (segs : List FilterSeg) (now : ℚ)
    (dep_grace_after_now_mins arr_grace_before_now_mins : ℚ) : List FilterSeg :=
  let dep_limit := now + dep_grace_after_now_mins
  let arr_limit := now - arr_grace_before_now_mins
  segs.filter fun seg =>
    match planned_dep_dt seg with
    | none => false
    | some dep_dt =>
      match planned_arr_dt seg (some dep_dt) with
      | none => false
      | some arr_dt => decide (dep_dt ≤ dep_limit ∧ arr_limit ≤ arr_dt)

/-! ## `masphd.runtime.recent_cache` -/

/-- `seg_id = (rid, first, second, planned_dep)` as built in `on_decoded`
(`rid` and `planned_dep` come from `dict.get` and may be `None`; `first` and
`second` are always route codes). -/
abbrev SegId := Option String × String × String × Option String

/-- `SegmentState` of `recent_cache.py`. -/
structure SegmentState where
  last_dep_time : Option String := none
  last_kind : String := "missing"
  actual_saved : Bool := false
  last_seen_order : Nat := 0
deriving DecidableEq

/-- `RecentSegmentCache`: an insertion-ordered map (`OrderedDict`) from
`seg_id` to state, most recently used at the tail, plus the monotonic tick. -/
structure Cache where
  entries : List (SegId × SegmentState)
  max_size : Nat
  tick : Nat
deriving DecidableEq

/-- `self._od.get(seg_id)`. -/
def cacheLookup (entries : List (SegId × SegmentState)) (k : SegId) : Option SegmentState :=
  (entries.find? (fun e => e.1 == k)).map (fun e => e.2)

/-- `RecentSegmentCache.touch`: bump the tick, upsert the state object, move
it to the most-recently-used end, overwrite `last_dep_time`/`last_kind`,
apply the EST→ACTUAL upgrade, and evict from the least-recent end while the
map exceeds `max_size`. -/
def touch (c : Cache) (seg_id : SegId) (dep_time : Option String) (kind : String)
    (has_actual : Bool) : Cache :=
  let tick := c.tick + 1
  let st0 := (cacheLookup c.entries seg_id).getD {}
  let remaining := c.entries.filter (fun e => e.1 != seg_id)
  let st1 : SegmentState :=
    { st0 with last_dep_time := dep_time, last_kind := kind, last_seen_order := tick }
  let st2 := if has_actual && st1.last_kind != "actual" then { st1 with last_kind := "actual" } else st1
  let entries := remaining ++ [(seg_id, st2)]
  let entries := if entries.length > c.max_size then entries.drop (entries.length - c.max_size) else entries
  { entries := entries, max_size := c.max_size, tick := tick }

/-- `RecentSegmentCache.mark_actual_saved`. -/
def mark_actual_saved (c : Cache) (seg_id : SegId) : Cache :=
  { c with
    entries := c.entries.map (fun e =>
      if e.1 == seg_id then (e.1, { e.2 with actual_saved := true }) else e) }

/-! ## `masphd.dao.realtime_store` (caller-side queue state) -/

/-- Caller-visible state of `RealTimeSQLiteStore`: the `_closed` flag and the
bounded queue of `(table, record)` items awaiting the writer thread. -/
structure Store (ρ : Type) where
  closed : Bool
  queue : List (String × ρ)
  maxsize : Nat
deriving DecidableEq

/-- `RealTimeSQLiteStore._enqueue`: refuse after close; `put(block=False)`
raises `Full` on a full queue, which is caught and reported as `False`. -/
def store_enqueue {ρ : Type} (s : Store ρ) (table : String) (rec : ρ) : Bool × Store ρ :=
  if s.closed then (false, s)
  else if s.queue.length ≥ s.maxsize then (false, s)
  else (true, { s with queue := s.queue ++ [(table, rec)] })

/-- `RealTimeSQLiteStore.insert_all`. -/
def insert_all {ρ : Type} (s : Store ρ) (rec : ρ) : Bool × Store ρ :=
  store_enqueue s "predictions_all" rec

/-- `RealTimeSQLiteStore.insert_actual`. -/
def insert_actual {ρ : Type} (s : Store ρ) (rec : ρ) : Bool × Store ρ :=
  store_enqueue s "predictions_actual" rec

/-- The caller-side effect of `RealTimeSQLiteStore.close`: `self._closed =
True` is set first; draining, the stop event and the join only concern the
writer thread and never clear the flag. -/
def store_close {ρ : Type} (s : Store ρ) : Store ρ :=
  { s with closed := true }

/-! ## `masphd.dao.schema` + writer loop: the two realtime tables -/

/-- A record enqueued for the realtime tables. Only the natural-key columns
participate in conflict detection; every other column of the row dict is the
opaque `payload`. `rid` and `planned_dep` are nullable at this point
(`first`/`second` are always route codes; `has_actual_dep`, the only other
`NOT NULL` column, is always a bool in the built record). -/
structure RTRec (α : Type) where
  rid : Option String
  first : String
  second : String
  planned_dep : Option String
  payload : α

/-- A persisted row: `rid` is `NOT NULL`, `planned_dep` may be SQL `NULL`. -/
structure RTRow (α : Type) where
  rid : String
  first : String
  second : String
  planned_dep : Option String
  payload : α

/-- Does an existing row violate `UNIQUE(rid, first, second, planned_dep)`
against a candidate record? Per SQLite, `NULL`s inside a unique index are
pairwise distinct, so a `NULL` `planned_dep` never conflicts. -/
def rt_conflicts {α : Type} (row : RTRow α) (r : RTRec α) : Bool :=
  match r.rid, r.planned_dep, row.planned_dep with
  | some rid, some p, some p2 =>
    row.rid == rid && row.first == r.first && row.second == r.second && p == p2
  | _, _, _ => false

/-- `INSERT OR IGNORE INTO <table> ...` as executed by
`RealTimeSQLiteStore._insert_with_conn`: a `NOT NULL` violation (`rid`
missing) or a unique-key conflict is silently ignored; otherwise the row is
appended. -/
def insert_or_ignore {α : Type} (t : List (RTRow α)) (r : RTRec α) : List (RTRow α) :=
  match r.rid with
  | none => t
  | some rid =>
    if t.any (fun row => rt_conflicts row r) then t
    else t ++ [{ rid := rid, first := r.first, second := r.second,
                 planned_dep := r.planned_dep, payload := r.payload }]

/-- The two tables written by the durable writer. -/
structure RTDB (α : Type) where
  predictions_all : List (RTRow α)
  predictions_actual : List (RTRow α)

/-- The freshly `ensure_schema`d database. -/
def emptyRTDB {α : Type} : RTDB α := { predictions_all := [], predictions_actual := [] }

/-- One iteration of `_writer_loop` on a dequeued `(table, record)` item. -/
def writer_apply {α : Type} (db : RTDB α) (item : String × RTRec α) : RTDB α :=
  if item.1 = "predictions_all" then
    { db with predictions_all := insert_or_ignore db.predictions_all item.2 }
  else if item.1 = "predictions_actual" then
    { db with predictions_actual := insert_or_ignore db.predictions_actual item.2 }
  else db

/-- The writer draining a sequence of items (possibly spanning several
process runs over the same on-disk database). -/
def writer_run {α : Type} (db : RTDB α) (items : List (String × RTRec α)) : RTDB α :=
  items.foldl writer_apply db

/-- Number of rows of a table carrying a given natural key. -/
def countKey {α : Type} (t : List (RTRow α)) (rid first second : String)
    (planned_dep : Option String) : Nat :=
  (t.filter (fun row =>
    row.rid == rid && row.first == first && row.second == second
      && row.planned_dep == planned_dep)).length

/-! ## `masphd.runtime.run_realtime_predict.on_decoded` dispatch -/

/-- The per-segment values `on_decoded` reads from the surviving segment dict
for its dispatch decision (`dep_time_kind` is always set by the extractor,
the other `dict.get` results stay optional). -/
structure DispatchSeg where
  rid : Option String
  first : String
  second : String
  planned_dep : Option String
  dep_time : Option String
  dep_kind : String
  has_actual : Bool
deriving DecidableEq

/-- Steps c–g of `on_decoded` for one surviving segment. `RecentSegmentCache`
defines none of `get_last_dep_time`, `get_last_kind`, `get_actual_saved`, so
each `hasattr(cache, ...)` guard fails and the fallback constants
`None`/`None`/`False` are used for the previous state. Returns the updated
cache and store together with `(should_insert_all, should_insert_actual)`. -/
def dispatch_step (cache : Cache) (store : Store DispatchSeg) (seg : DispatchSeg) :
    Cache × Store DispatchSeg × Bool × Bool :=
  let seg_id : SegId := (seg.rid, seg.first, seg.second, seg.planned_dep)
  let prev_dep : Option String := none
  let prev_kind : Option String := none
  let prev_actual_saved : Bool := false
  let cache1 := touch cache seg_id seg.dep_time seg.dep_kind seg.has_actual
  let should_insert_all : Bool :=
    (prev_dep == none && prev_kind == none) || seg.dep_time != prev_dep
      || some seg.dep_kind != prev_kind
  let should_insert_actual : Bool := seg.has_actual && !prev_actual_saved
  let store1 := if should_insert_all then (insert_all store seg).2 else store
  let actualResult :=
    if should_insert_actual then insert_actual store1 seg else (false, store1)
  let cache2 :=
    if should_insert_actual && actualResult.1 then mark_actual_saved cache1 seg_id else cache1
  (cache2, actualResult.2, should_insert_all, should_insert_actual)

/-! ## `masphd.dao.actual_arrivals_hsp.upsert_actual_arrival` -/

/-- The record built by `make_actual_arrival_record` (its `rid`, `first` and
`second` are guaranteed non-`None` strings; `planned_dep` may be `None`). -/
structure HspRec where
  rid : String
  ssd : Option String := none
  first : String
  second : String
  planned_dep : Option String := none
  is_main_journey : Int := 0
  predicted_delay : Option ℚ := none
  planned_arr : Option String := none
  actual_arr : Option String := none
  actual_arr_delay : Option ℚ := none
  toc_code : Option String := none
  hsp_location_crs : Option String := none
  hsp_tpls : Option String := none
deriving DecidableEq

/-- Conflict on `UNIQUE(rid, first, second, planned_dep)` for
`actual_arrivals_hsp` rows: again, a `NULL` `planned_dep` never conflicts. -/
def hsp_conflicts (row r : HspRec) : Bool :=
  row.rid == r.rid && row.first == r.first && row.second == r.second
    && (match row.planned_dep, r.planned_dep with
        | some p1, some p2 => p1 == p2
        | _, _ => false)

/-- Replace the first conflicting row by the updated record (all non-key
columns set from `excluded`, i.e. the incoming record; key columns agree on a
conflict, so the updated row is the record itself). Returns the new list and
whether a conflict fired. -/
def replaceFirstConflict : List HspRec → HspRec → List HspRec × Bool
  | [], _ => ([], false)
  | row :: rest, r =>
    if hsp_conflicts row r then (r :: rest, true)
    else
      let res := replaceFirstConflict rest r
      (row :: res.1, res.2)

/-- `upsert_actual_arrival`: `INSERT ... ON CONFLICT(rid, first, second,
planned_dep) DO UPDATE SET <non-key> = excluded.<non-key>`. -/
def upsert_actual_arrival (t : List HspRec) (r : HspRec) : List HspRec :=
  let res := replaceFirstConflict t r
  if res.2 then res.1 else t ++ [r]

/-! ## Statement-side helpers -/

/-- The ASCII digit character of a value ≤ 9. -/
def digitChar : Nat → Char
  | 0 => '0'
  | 1 => '1'
  | 2 => '2'
  | 3 => '3'
  | 4 => '4'
  | 5 => '5'
  | 6 => '6'
  | 7 => '7'
  | 8 => '8'
  | _ => '9'

/-- A two-digit `HH:MM` clock string built from numeric components. -/
def fmtHM (h m : Nat) : String :=
  String.mk [digitChar (h / 10), digitChar (h % 10), ':', digitChar (m / 10), digitChar (m % 10)]

/-- A two-digit `HH:MM:SS` clock string built from numeric components. -/
def fmtHMS (h m s : Nat) : String :=
  String.mk [digitChar (h / 10), digitChar (h % 10), ':', digitChar (m / 10), digitChar (m % 10),
             ':', digitChar (s / 10), digitChar (s % 10)]

/-- Key-uniqueness invariant of a realtime table: at most one row per
natural key whose `planned_dep` is non-`NULL`. -/
def RTInv {α : Type} (t : List (RTRow α)) : Prop :=
  ∀ rid first second p, countKey t rid first second (some p) ≤ 1

/-! ## Concrete inputs used to exercise the theorems -/

/-- A forecast message covering the SOTON→SOTPKWY pair (spec scenario S1). -/
def s1_forecasts : List Loc :=
  [{ rid := some "X1", ssd := some "2025-04-10", tpl := some "SOTON",
     ptd := some "09:00", etd := some "09:03" },
   { rid := some "X1", ssd := some "2025-04-10", tpl := some "SOTPKWY",
     pta := some "09:15" }]

/-- Schedule endpoints matching the tracked route direction. -/
def s1_schedules : List Sched :=
  [{ tpl := some "WEYMTH", typ := some "OR" },
   { tpl := some "WATRLMN", typ := some "DT" }]

/-- A surviving segment with a confirmed actual departure, as dispatched by
`on_decoded` (spec scenario S2). -/
def s2_seg : DispatchSeg :=
  { rid := some "X1", first := "SOTON", second := "SOTPKWY",
    planned_dep := some "09:00", dep_time := some "09:04",
    dep_kind := "actual", has_actual := true }

/-- A fresh cache of the default size. -/
def cache0 : Cache := { entries := [], max_size := 500, tick := 0 }

/-- A fresh store of the default queue size. -/
def store0 : Store DispatchSeg := { closed := false, queue := [], maxsize := 5000 }

/-- A realtime record whose `planned_dep` is SQL `NULL`. -/
def null_dep_rec : RTRec Unit :=
  { rid := some "201904108004789", first := "SOTON", second := "SOTPKWY",
    planned_dep := none, payload := () }

/-- An enrichment record with a `NULL` `planned_dep`. -/
def hsp_null_rec : HspRec :=
  { rid := "R1", first := "WEYMTH", second := "UPWEY", planned_dep := none,
    ssd := some "2025-03-01", planned_arr := some "10:12", actual_arr := some "10:14" }

/-- An enrichment record with a populated `planned_dep` (spec scenario S6). -/
def hsp_s6_rec : HspRec :=
  { rid := "R1", first := "WEYMTH", second := "UPWEY", planned_dep := some "10:05",
    ssd := some "2025-03-01", planned_arr := some "10:12", actual_arr := some "10:14" }

/-! # Theorems -/

/-! ## C5 — `diff_minutes_wrap` -/

/-- C5 (counterexample): for `planned = 0`, `actual = 3000` minutes the pair
is outside the `|raw| ≤ 720` window, yet the result `1560` does not lie in
`(-1200, +1200]` as the claim asserts for every such pair. -/
theorem C5_counterexample :
    diff_minutes_wrap (some 0) (some 3000) = some 1560
    ∧ ¬ |(3000 : ℚ) - 0| ≤ 720
    ∧ ¬ (-1200 < (1560 : ℚ) ∧ (1560 : ℚ) ≤ 1200) := by
  refine ⟨by norm_num [diff_minutes_wrap], by norm_num, by norm_num⟩

/-- C5 (amended): `diff_minutes_wrap` returns the raw difference with 1440
subtracted once when it exceeds +1200 and added once when it is below −1200;
when `|raw| ≤ 720` the result is the raw difference itself; and the result
lies in `[-1200, +1200]` whenever the raw difference lies in
`(-2640, +2640]` (beyond that window a single ±1440 adjustment cannot bring
the value back into range). -/
theorem C5_amended (p a : ℚ) :
    diff_minutes_wrap (some p) (some a)
        = some (if a - p > 1200 then a - p - 1440
                else if a - p < -1200 then a - p + 1440 else a - p)
    ∧ (|a - p| ≤ 720 → diff_minutes_wrap (some p) (some a) = some (a - p))
    ∧ (-2640 < a - p → a - p ≤ 2640 →
        ∀ x, diff_minutes_wrap (some p) (some a) = some x → -1200 ≤ x ∧ x ≤ 1200) := by
  refine ⟨?_, ?_, ?_⟩
  · simp only [diff_minutes_wrap]
    split_ifs <;> first | rfl | (exfalso; linarith)
  · intro h
    obtain ⟨h1, h2⟩ := abs_le.mp h
    simp only [diff_minutes_wrap]
    split_ifs <;> first | rfl | (exfalso; linarith)
  · intro hlo hhi x hx
    simp only [diff_minutes_wrap] at hx
    split_ifs at hx with h1 h2 h3 <;>
      (simp only [Option.some.injEq] at hx; subst hx; constructor <;> linarith)

/-- C5 (witness): at `planned = 0`, `actual = 100` the difference is inside
the 12-hour window, the result is the raw difference `100`, and it lies in
the normalized range. -/
theorem C5_witness :
    diff_minutes_wrap (some 0) (some 100) = some 100
    ∧ (-1200 ≤ (100 : ℚ) ∧ (100 : ℚ) ≤ 1200) := by
  have h := C5_amended 0 100
  have h2 := h.2.1 (by norm_num)
  refine ⟨by simpa using h2, ?_⟩
  exact h.2.2 (by norm_num) (by norm_num) 100 (by simpa using h2)

/-! ## C10 — enqueue after close -/

/-- C10: `close` sets the `_closed` flag, and once the flag is set both
`insert_all` and `insert_actual` return the dropped result `False` and leave
the store (in particular its queue) unchanged, so nothing submitted after
close is ever enqueued or written. -/
theorem C10_closed_drops (ρ : Type) (s : Store ρ) (rec : ρ) (h : s.closed = true) :
    insert_all s rec = (false, s)
    ∧ insert_actual s rec = (false, s)
    ∧ (store_close s).closed = true := by
  refine ⟨?_, ?_, rfl⟩ <;> simp [insert_all, insert_actual, store_enqueue, h]

/-- C10 (witness): a freshly closed default store drops both kinds of
insert. -/
theorem C10_witness :
    insert_all (store_close store0) s2_seg = (false, store_close store0)
    ∧ insert_actual (store_close store0) s2_seg = (false, store_close store0) := by
  have h := C10_closed_drops DispatchSeg (store_close store0) s2_seg rfl
  exact ⟨h.1, h.2.1⟩

/-! ## C2 — the dispatch policy of `on_decoded` -/

/-- C2: processing the same surviving segment twice through the `on_decoded`
dispatch step. After the first step the cache holds exactly the current
`(dep_time, kind)` for the `seg_id` and `actual_saved = true`, yet the second
step still reports `should_insert_all = true` and `should_insert_actual =
true`, because `RecentSegmentCache` defines none of the getters `on_decoded`
probes with `hasattr` and the previous state therefore always reads as
absent. This contradicts the claimed dispatch policy at this input. -/
theorem C2_dispatch_ignores_cache :
    (dispatch_step (dispatch_step cache0 store0 s2_seg).1
        (dispatch_step cache0 store0 s2_seg).2.1 s2_seg).2.2 = (true, true)
    ∧ cacheLookup (dispatch_step cache0 store0 s2_seg).1.entries
        (some "X1", "SOTON", "SOTPKWY", some "09:00")
        = some { last_dep_time := some "09:04", last_kind := "actual",
                 actual_saved := true, last_seen_order := 1 } := by
  decide

/-! ## C9 — upsert idempotence for `actual_arrivals_hsp` -/

/-- A record with a non-`NULL` `planned_dep` conflicts with itself. -/
lemma hsp_conflicts_self (r : HspRec) (p : String) (h : r.planned_dep = some p) :
    hsp_conflicts r r = true := by
  simp [hsp_conflicts, h]

/-- If the conflict fired, firing it again on the updated table replaces the
already-updated row with the identical record. -/
lemma replaceFirstConflict_found_idem (r : HspRec) (hc : hsp_conflicts r r = true) :
    ∀ t : List HspRec, (replaceFirstConflict t r).2 = true →
      replaceFirstConflict (replaceFirstConflict t r).1 r = ((replaceFirstConflict t r).1, true) := by
  intro t
  induction t with
  | nil => simp [replaceFirstConflict]
  | cons row rest ih =>
    by_cases h : hsp_conflicts row r = true
    · intro _
      simp [replaceFirstConflict, h, hc]
    · intro hfound
      simp only [replaceFirstConflict, h, if_neg, Bool.false_eq_true, if_false] at hfound ⊢
      have := ih hfound
      simp [this, h]

/-- If no conflict fired on `t`, it fires on `t ++ [r]` exactly at the
appended record, leaving the list unchanged. -/
lemma replaceFirstConflict_append_self (r : HspRec) (hc : hsp_conflicts r r = true) :
    ∀ t : List HspRec, (replaceFirstConflict t r).2 = false →
      replaceFirstConflict (t ++ [r]) r = (t ++ [r], true) := by
  intro t
  induction t with
  | nil => simp [replaceFirstConflict, hc]
  | cons row rest ih =>
    intro hnf
    simp only [replaceFirstConflict] at hnf
    by_cases h : hsp_conflicts row r = true
    · simp [h] at hnf
    · simp only [h, Bool.false_eq_true, if_false] at hnf
      have := ih hnf
      simp [replaceFirstConflict, h, List.cons_append, this]

/-- C9 (amended): upserting the same record twice is idempotent whenever the
record's `planned_dep` is non-`NULL`: the second `ON CONFLICT(rid, first,
second, planned_dep) DO UPDATE` overwrites the row written by the first with
identical values. (With a `NULL` `planned_dep` the conflict target never
fires — see the counterexample — because SQLite treats `NULL`s in a unique
index as pairwise distinct.) -/
theorem C9_amended (t : List HspRec) (r : HspRec) (p : String)
    (h : r.planned_dep = some p) :
    upsert_actual_arrival (upsert_actual_arrival t r) r = upsert_actual_arrival t r := by
  have hc := hsp_conflicts_self r p h
  unfold upsert_actual_arrival
  cases hfound : (replaceFirstConflict t r).2 with
  | true =>
    have h2 := replaceFirstConflict_found_idem r hc t hfound
    simp [hfound, h2]
  | false =>
    have h2 := replaceFirstConflict_append_self r hc t hfound
    simp [hfound, h2]

/-- C9 (witness): the scenario-S6 record, whose `planned_dep` is `"10:05"`,
upserts idempotently. -/
theorem C9_witness :
    upsert_actual_arrival (upsert_actual_arrival [] hsp_s6_rec) hsp_s6_rec
      = upsert_actual_arrival [] hsp_s6_rec :=
  C9_amended [] hsp_s6_rec "10:05" rfl

/-- C9 (counterexample): a record with a `NULL` `planned_dep` never conflicts
with its own earlier copy, so upserting it twice yields two rows while once
yields one — the claim as stated fails on such records. -/
theorem C9_counterexample :
    upsert_actual_arrival (upsert_actual_arrival [] hsp_null_rec) hsp_null_rec
        = [hsp_null_rec, hsp_null_rec]
    ∧ upsert_actual_arrival [] hsp_null_rec = [hsp_null_rec] := by
  decide

/-! ## C1 — at most one row per natural key in the realtime tables -/

/-- Appending one row changes a key count by at most the row's own match. -/
lemma countKey_append_single {α : Type} (t : List (RTRow α)) (row : RTRow α)
    (rid f s : String) (pd : Option String) :
    countKey (t ++ [row]) rid f s pd
      = countKey t rid f s pd
        + (if row.rid == rid && row.first == f && row.second == s && row.planned_dep == pd
           then 1 else 0) := by
  simp only [countKey, List.filter_append, List.length_append]
  split <;> simp_all

/-- If no existing row conflicts with a record carrying a non-`NULL` key,
the table holds no row with that key. -/
lemma no_conflict_countKey_zero {α : Type} (t : List (RTRow α)) (r : RTRec α)
    (rid p : String) (hr : r.rid = some rid) (hp : r.planned_dep = some p)
    (hnc : t.any (fun row => rt_conflicts row r) = false) :
    countKey t rid r.first r.second (some p) = 0 := by
  rw [countKey, List.length_eq_zero, List.filter_eq_nil_iff]
  intro row hrow hcond
  have hfalse : rt_conflicts row r = false := by
    by_contra hcon
    rw [Bool.not_eq_false] at hcon
    have : t.any (fun row => rt_conflicts row r) = true :=
      List.any_eq_true.mpr ⟨row, hrow, hcon⟩
    rw [this] at hnc
    exact absurd hnc (by simp)
  simp only [Bool.and_eq_true, beq_iff_eq] at hcond
  obtain ⟨⟨⟨hrid, hfst⟩, hsnd⟩, hpd⟩ := hcond
  rw [rt_conflicts, hr, hp, hpd] at hfalse
  simp [hrid, hfst, hsnd] at hfalse

/-- `INSERT OR IGNORE` preserves the key-uniqueness invariant. -/
lemma insert_or_ignore_preserves {α : Type} (t : List (RTRow α)) (r : RTRec α)
    (h : RTInv t) : RTInv (insert_or_ignore t r) := by
  unfold insert_or_ignore
  cases hr : r.rid with
  | none => exact h
  | some rid =>
    cases hc : t.any (fun row => rt_conflicts row r) with
    | true => simpa [hc] using h
    | false =>
      simp only [hc, Bool.false_eq_true, if_false]
      intro rid2 f s p
      rw [countKey_append_single]
      by_cases hm : (rid == rid2 && r.first == f && r.second == s
          && r.planned_dep == some p) = true
      · simp only [Bool.and_eq_true, beq_iff_eq] at hm
        obtain ⟨⟨⟨h1, h2⟩, h3⟩, h4⟩ := hm
        subst h1 h2 h3
        have hzero := no_conflict_countKey_zero t r rid p hr h4 hc
        simp [hzero, h4]
      · have : countKey t rid2 f s (some p) ≤ 1 := h rid2 f s p
        simp only at hm
        simp [hm]
        omega

/-- One writer iteration preserves both tables' invariants. -/
lemma writer_apply_preserves {α : Type} (db : RTDB α) (item : String × RTRec α)
    (h1 : RTInv db.predictions_all) (h2 : RTInv db.predictions_actual) :
    RTInv (writer_apply db item).predictions_all
      ∧ RTInv (writer_apply db item).predictions_actual := by
  unfold writer_apply
  split_ifs <;>
    exact ⟨by first | exact insert_or_ignore_preserves _ _ h1 | exact h1,
           by first | exact insert_or_ignore_preserves _ _ h2 | exact h2⟩

/-- Draining any item sequence preserves both tables' invariants. -/
lemma writer_run_inv {α : Type} (items : List (String × RTRec α)) :
    ∀ db : RTDB α, RTInv db.predictions_all → RTInv db.predictions_actual →
      RTInv (writer_run db items).predictions_all
        ∧ RTInv (writer_run db items).predictions_actual := by
  induction items with
  | nil => exact fun db h1 h2 => ⟨h1, h2⟩
  | cons item rest ih =>
    intro db h1 h2
    have hp := writer_apply_preserves db item h1 h2
    exact ih _ hp.1 hp.2

/-- C1 (amended): over any sequence of records drained by the durable writer
into a fresh database — covering replays, since the sequence is arbitrary —
`predictions_all` and `predictions_actual` each hold at most one row per
natural key `(rid, first, second, planned_dep)` whose `planned_dep` is
non-`NULL`. (Rows with a `NULL` `planned_dep` are exempt: SQLite's unique
index treats `NULL`s as pairwise distinct — see the counterexample.) -/
theorem C1_amended {α : Type} (items : List (String × RTRec α))
    (rid first second p : String) :
    countKey (writer_run emptyRTDB items).predictions_all rid first second (some p) ≤ 1
    ∧ countKey (writer_run emptyRTDB items).predictions_actual rid first second (some p) ≤ 1 := by
  have h := writer_run_inv items emptyRTDB
    (fun _ _ _ _ => by simp [countKey, emptyRTDB])
    (fun _ _ _ _ => by simp [countKey, emptyRTDB])
  exact ⟨h.1 rid first second p, h.2 rid first second p⟩

/-- C1 (counterexample): replaying a record whose `planned_dep` is SQL
`NULL` produces two rows with the same natural key — `INSERT OR IGNORE`
never sees a conflict because `NULL`s are distinct inside the unique
index. -/
theorem C1_counterexample :
    countKey (writer_run emptyRTDB
        [("predictions_all", null_dep_rec), ("predictions_all", null_dep_rec)]).predictions_all
      "201904108004789" "SOTON" "SOTPKWY" none = 2 := by
  decide

/-! ## C3 — `WeightedEnsemblePredictor.predict_one` -/

/-- C3 (amended): with no weight entry (or an empty one) for the pair,
`predict_one` returns `none`; with a non-empty entry it returns the weighted
sum divided by the total weight when the total is strictly positive, and the
raw (unnormalized) weighted sum — not `none` — when the total is not
strictly positive. -/
theorem C3_amended (weights : List (String × List (String × ℚ)))
    (modelPred : String → String → String → ℚ) (first second : String) :
    (lookupDict weights (first ++ "_" ++ second) = none →
      predict_one weights modelPred first second = none)
    ∧ (lookupDict weights (first ++ "_" ++ second) = some [] →
      predict_one weights modelPred first second = none)
    ∧ (∀ wdict, lookupDict weights (first ++ "_" ++ second) = some wdict → wdict ≠ [] →
        ((wdict.map (fun mw => mw.2)).sum > 0 →
          predict_one weights modelPred first second
            = some ((wdict.map (fun mw => mw.2 * modelPred first second mw.1)).sum
                / (wdict.map (fun mw => mw.2)).sum))
        ∧ (¬ (wdict.map (fun mw => mw.2)).sum > 0 →
          predict_one weights modelPred first second
            = some ((wdict.map (fun mw => mw.2 * modelPred first second mw.1)).sum))) := by
  refine ⟨?_, ?_, ?_⟩
  · intro h
    simp [predict_one, h]
  · intro h
    simp [predict_one, h]
  · intro wdict h hne
    cases wdict with
    | nil => exact absurd rfl hne
    | cons w0 wrest =>
      constructor
      · intro hpos
        simp only [predict_one, h]
        rw [if_pos hpos]
      · intro hnonpos
        simp only [predict_one, h]
        rw [if_neg hnonpos]

/-- C3 (counterexample): a present but zero-total weight entry — weight `0`
for the single sub-model — yields `some 0` (the unnormalized weighted sum),
not the `none` the claim requires when the total weight is not strictly
positive. -/
theorem C3_counterexample :
    predict_one [("A_B", [("m", 0)])] (fun _ _ _ => 5) "A" "B" = some 0 := by
  have hl : lookupDict [("A_B", [("m", (0 : ℚ))])] ("A" ++ "_" ++ "B")
      = some [("m", (0 : ℚ))] := by
    simp [lookupDict]
  simp only [predict_one, hl]
  norm_num

/-- C3 (witness): a positive-total entry normalizes: weight `2` on a
sub-model predicting `5` yields `(2·5)/2 = 5`. -/
theorem C3_witness :
    predict_one [("A_B", [("m", 2)])] (fun _ _ _ => 5) "A" "B" = some 5 := by
  have h := ((C3_amended [("A_B", [("m", (2 : ℚ))])] (fun _ _ _ => 5) "A" "B").2.2
    [("m", (2 : ℚ))] (by simp [lookupDict]) (by simp)).1 (by norm_num)
  rw [h]
  norm_num

/-! ## C6 — `combine_date_time_smart` -/

/-- C6 (amended): when the naive combination resolves, the smart combine
advances it by exactly one day iff it is earlier than `base` by strictly
more than 2 hours; the naive value is returned unchanged when the gap is at
most 2 hours; and the result is ≥ `base` whenever the gap lies in
`(2h, 24h]` — but not beyond 24 hours, where a single one-day advance still
falls short of `base` (see the counterexample). -/
theorem C6_amended (ssd t : String) (b naive : ℚ)
    (h : combine_date_time ssd (some t) = some naive) :
    combine_date_time_smart ssd (some t) (some b)
        = some (if b - naive > 120 then naive + 1440 else naive)
    ∧ (b - naive ≤ 120 → combine_date_time_smart ssd (some t) (some b) = some naive)
    ∧ (120 < b - naive → b - naive ≤ 1440 →
        ∀ x, combine_date_time_smart ssd (some t) (some b) = some x → b ≤ x) := by
  have hchar : combine_date_time_smart ssd (some t) (some b)
      = some (if b - naive > 120 then naive + 1440 else naive) := by
    simp only [combine_date_time_smart, h]
    split_ifs <;> first | rfl | (exfalso; linarith)
  refine ⟨hchar, ?_, ?_⟩
  · intro hle
    rw [hchar, if_neg (by linarith)]
  · intro hgt hle x hx
    rw [hchar, if_pos hgt] at hx
    simp only [Option.some.injEq] at hx
    subst hx
    linarith

/-- C6 (counterexample): with the naive combination `2025-04-10 12:00`
(timeline value `29071440`) and a base three days later, the gap of 4320
minutes exceeds the 2-hour exception, yet the smart combine advances by only
one day and returns a value strictly below `base` — refuting `result ≥
base`. -/
theorem C6_counterexample :
    combine_date_time "2025-04-10" (some "12:00") = some 29071440
    ∧ combine_date_time_smart "2025-04-10" (some "12:00") (some 29075760) = some 29072880
    ∧ (29075760 : ℚ) - 29071440 > 120
    ∧ (29072880 : ℚ) < 29075760 := by
  have h1 : parse_hms (some "12:00") = some ⟨12, 0, 0⟩ := by decide
  have h2 : parse_date "2025-04-10" = some (2025, 4, 10) := by decide
  have h3 : daysFromCivil 2025 4 10 = 20188 := by decide
  have hc : combine_date_time "2025-04-10" (some "12:00") = some 29071440 := by
    simp only [combine_date_time, h1, h2]
    rw [h3]
    norm_num [timeMinutes]
  refine ⟨hc, ?_, by norm_num, by norm_num⟩
  simp only [combine_date_time_smart, hc]
  norm_num

/-- C6 (witness): with a base 300 minutes after the naive combination the
gap exceeds 2 hours, the smart combine advances by one day, and the result
lands at or above the base. -/
theorem C6_witness :
    combine_date_time_smart "2025-04-10" (some "12:00") (some 29071740) = some 29072880
    ∧ (29071740 : ℚ) ≤ 29072880 := by
  have hc : combine_date_time "2025-04-10" (some "12:00") = some 29071440 := by
    have h1 : parse_hms (some "12:00") = some ⟨12, 0, 0⟩ := by decide
    have h2 : parse_date "2025-04-10" = some (2025, 4, 10) := by decide
    have h3 : daysFromCivil 2025 4 10 = 20188 := by decide
    simp only [combine_date_time, h1, h2]
    rw [h3]
    norm_num [timeMinutes]
  have h := C6_amended "2025-04-10" "12:00" 29071740 29071440 hc
  constructor
  · rw [h.1]
    norm_num
  · exact h.2.2 (by norm_num) (by norm_num) 29072880 (by rw [h.1]; norm_num)

/-! ## C8 — the in-progress filter -/

/-- C8: a segment is kept by the in-progress filter (with the orchestrator's
grace parameters 5 and 2) iff it occurs in the input, its planned departure
resolves, its destination planned arrival resolves against that departure as
base, the departure is at most `now + 5`, and the arrival is at least
`now − 2`; segments whose departure or destination arrival cannot be
determined are never kept. -/
theorem C8_in_progress_iff (segs : List FilterSeg) (now : ℚ) (seg : FilterSeg) :
    seg ∈ filter_segments_in_progress segs now 5 2 ↔
      seg ∈ segs ∧ ∃ dep arr : ℚ,
        planned_dep_dt seg = some dep
        ∧ planned_arr_dt seg (some dep) = some arr
        ∧ dep ≤ now + 5 ∧ now - 2 ≤ arr := by
  unfold filter_segments_in_progress
  rw [List.mem_filter]
  refine and_congr_right fun _ => ?_
  cases hd : planned_dep_dt seg with
  | none => simp [hd]
  | some dep =>
    cases ha : planned_arr_dt seg (some dep) with
    | none => simp [hd, ha]
    | some arr => simp [hd, ha]

/-! ## C7 — direction filtering via schedule endpoints -/

/-- When both schedule endpoints are present, the direction check compares
them with the route origin (first station of the first tracked pair,
`WEYMTH`) and destination (second station of the last tracked pair,
`WATRLMN`). -/
lemma rid_matches_of_endpoints (schedules : List Sched) (o d : String)
    (h : schedule_endpoints schedules = (some o, some d)) :
    rid_matches_station_pairs_direction schedules
      = some (decide (o = "WEYMTH" ∧ d = "WATRLMN")) := by
  unfold rid_matches_station_pairs_direction
  rw [h]
  rfl

/-- A pair yields a record exactly when both its locations are indexed. -/
lemma mkSegmentRecord_isSome (fs rid ssd : Option String) (byTpl : String → Option Loc)
    (a b : String) :
    (mkSegmentRecord fs rid ssd byTpl a b).isSome = ((byTpl a).isSome && (byTpl b).isSome) := by
  cases h1 : byTpl a <;> cases h2 : byTpl b <;> simp [mkSegmentRecord, h1, h2]

/-- A produced record carries its pair as `(first, second)`. -/
lemma mkSegmentRecord_pair (fs rid ssd : Option String) (byTpl : String → Option Loc)
    (a b : String) (r : SegRecord) (h : mkSegmentRecord fs rid ssd byTpl a b = some r) :
    r.first = a ∧ r.second = b := by
  cases h1 : byTpl a <;> cases h2 : byTpl b <;>
    simp only [mkSegmentRecord, h1, h2, Option.some.injEq] at h
  · exact absurd h (by simp)
  · exact absurd h (by simp)
  · exact absurd h (by simp)
  · subst h
    exact ⟨rfl, rfl⟩

/-- The extraction loop, projected to station pairs, is exactly the filter
over pairs with both locations present. -/
lemma filterMap_mk_pairs (fs rid ssd : Option String) (byTpl : String → Option Loc) :
    ∀ l : List (String × String),
      ((l.filterMap (fun p => mkSegmentRecord fs rid ssd byTpl p.1 p.2)).map
          (fun r => (r.first, r.second)))
        = l.filter (fun p => (byTpl p.1).isSome && (byTpl p.2).isSome) := by
  intro l
  induction l with
  | nil => rfl
  | cons p rest ih =>
    rw [List.filterMap_cons, List.filter_cons]
    cases hmk : mkSegmentRecord fs rid ssd byTpl p.1 p.2 with
    | none =>
      have hs : ((byTpl p.1).isSome && (byTpl p.2).isSome) = false := by
        rw [← mkSegmentRecord_isSome fs rid ssd byTpl p.1 p.2, hmk]
        rfl
      simp [hs, ih]
    | some r =>
      have hs : ((byTpl p.1).isSome && (byTpl p.2).isSome) = true := by
        rw [← mkSegmentRecord_isSome fs rid ssd byTpl p.1 p.2, hmk]
        rfl
      obtain ⟨hf, hsec⟩ := mkSegmentRecord_pair fs rid ssd byTpl p.1 p.2 r hmk
      simp [hs, ih, hf, hsec]

/-- C7: with `drop_wrong_direction` set and both schedule endpoints present,
if they equal the route endpoints `(WEYMTH, WATRLMN)` then `extract_segments`
emits exactly one record — carrying that pair — for every tracked pair whose
two locations are present in the forecast index; if the endpoints differ
from the route endpoints in any way (in particular when swapped), it returns
the empty list. -/
theorem C7_direction_filter (forecasts : List Loc) (schedules : List Sched) :
    (schedule_endpoints schedules = (some "WEYMTH", some "WATRLMN") →
      (extract_segments forecasts schedules true).map (fun r => (r.first, r.second))
        = STATION_PAIRS.filter (fun p =>
            (build_tpl_index forecasts p.1).isSome && (build_tpl_index forecasts p.2).isSome))
    ∧ (∀ o d, schedule_endpoints schedules = (some o, some d) →
        ¬(o = "WEYMTH" ∧ d = "WATRLMN") →
        extract_segments forecasts schedules true = []) := by
  constructor
  · intro hend
    have hm : rid_matches_station_pairs_direction schedules = some true := by
      rw [rid_matches_of_endpoints schedules "WEYMTH" "WATRLMN" hend]
      rfl
    cases forecasts with
    | nil =>
      simp only [extract_segments, List.map_nil]
      decide
    | cons f0 rest =>
      simp only [extract_segments, hm, eq_self_iff_true, if_true]
      exact filterMap_mk_pairs _ f0.rid f0.ssd (build_tpl_index (f0 :: rest)) STATION_PAIRS
  · intro o d hend hne
    have hm : rid_matches_station_pairs_direction schedules = some false := by
      rw [rid_matches_of_endpoints schedules o d hend, decide_eq_false hne]
    cases forecasts with
    | nil => rfl
    | cons f0 rest =>
      simp only [extract_segments, hm, if_true, Bool.false_eq_true, if_false]

/-- C7 (witness): the scenario-S1 message — forecasts for SOTON and SOTPKWY,
schedule endpoints equal to the route endpoints — yields exactly the one
extractable pair. -/
theorem C7_witness :
    (extract_segments s1_forecasts s1_schedules true).map (fun r => (r.first, r.second))
      = [("SOTON", "SOTPKWY")] := by
  have h := (C7_direction_filter s1_forecasts s1_schedules).1 (by decide)
  rw [h]
  decide

/-! ## C4 — `parse_hms` -/

/-- Facts about ASCII digit characters of values ≤ 9. -/
lemma digitChar_spec (k : Nat) (h : k ≤ 9) :
    isAsciiDigit (digitChar k) = true ∧ digitVal (digitChar k) = k
      ∧ digitChar k ≠ ':' ∧ digitChar k ≠ '+' ∧ digitChar k ≠ '-'
      ∧ isPyWs (digitChar k) = false := by
  interval_cases k <;> decide

/-- Stripping a whitespace-free string is the identity. -/
lemma pyStrip_eq_self (l : List Char) (h : ∀ c ∈ l, isPyWs c = false) : pyStrip l = l := by
  have key : ∀ m : List Char, (∀ c ∈ m, isPyWs c = false) → m.dropWhile isPyWs = m := by
    intro m hm
    cases m with
    | nil => rfl
    | cons c rest =>
      rw [List.dropWhile_cons]
      simp [hm c (List.mem_cons_self c rest)]
  unfold pyStrip
  rw [key l h, key l.reverse (fun c hc => h c (List.mem_reverse.mp hc)), List.reverse_reverse]

/-- `str.split` always returns at least one part. -/
lemma pySplit_ne_nil (sep : Char) (l : List Char) : pySplit sep l ≠ [] := by
  cases l with
  | nil => simp [pySplit]
  | cons c rest =>
    simp only [pySplit]
    split
    · simp
    · split <;> simp

/-- Splitting a separator-free string returns it whole. -/
lemma pySplit_no_sep (sep : Char) : ∀ l : List Char, (∀ c ∈ l, c ≠ sep) → pySplit sep l = [l] := by
  intro l
  induction l with
  | nil => intro _; rfl
  | cons c rest ih =>
    intro h
    have hr := ih (fun x hx => h x (List.mem_cons_of_mem c hx))
    simp only [pySplit, hr]
    rw [if_neg (h c (List.mem_cons_self c rest))]

/-- Splitting peels off the part before the first separator. -/
lemma pySplit_append (sep : Char) (l2 : List Char) :
    ∀ l1 : List Char, (∀ c ∈ l1, c ≠ sep) →
      pySplit sep (l1 ++ sep :: l2) = l1 :: pySplit sep l2 := by
  intro l1
  induction l1 with
  | nil =>
    intro _
    obtain ⟨cur, parts, hcp⟩ : ∃ cur parts, pySplit sep l2 = cur :: parts := by
      cases hx : pySplit sep l2 with
      | nil => exact absurd hx (pySplit_ne_nil sep l2)
      | cons cur parts => exact ⟨cur, parts, rfl⟩
    simp only [List.nil_append, pySplit, hcp]
    simp
  | cons c rest ih =>
    intro h
    have hr := ih (fun x hx => h x (List.mem_cons_of_mem c hx))
    show pySplit sep (c :: (rest ++ sep :: l2)) = (c :: rest) :: pySplit sep l2
    simp only [pySplit, hr]
    rw [if_neg (h c (List.mem_cons_self c rest))]

/-- A digit character is not whitespace and not a sign. -/
lemma isAsciiDigit_props (c : Char) (h : isAsciiDigit c = true) :
    isPyWs c = false ∧ c ≠ '+' ∧ c ≠ '-' := by
  unfold isAsciiDigit at h
  simp only [Bool.and_eq_true, decide_eq_true_eq] at h
  obtain ⟨hlo, hhi⟩ := h
  refine ⟨?_, ?_, ?_⟩
  · by_contra hw
    rw [Bool.not_eq_false] at hw
    unfold isPyWs at hw
    simp only [Bool.or_eq_true, decide_eq_true_eq] at hw
    rcases hw with ((((hc | hc) | hc) | hc) | hc) | hc <;> (subst hc; exact absurd hlo (by decide))
  · rintro rfl
    exact absurd hlo (by decide)
  · rintro rfl
    exact absurd hlo (by decide)

/-- Value of a two-digit string body. -/
lemma pyDigitsVal_two (c1 c2 : Char) (h1 : isAsciiDigit c1 = true) (h2 : isAsciiDigit c2 = true) :
    pyDigitsVal [c1, c2] = some (digitVal c1 * 10 + digitVal c2) := by
  simp [pyDigitsVal, pyDigitsAux, h1, h2]

/-- `int()` of a two-digit string. -/
lemma pyInt_two (c1 c2 : Char) (h1 : isAsciiDigit c1 = true) (h2 : isAsciiDigit c2 = true) :
    pyInt [c1, c2] = some (Int.ofNat (digitVal c1 * 10 + digitVal c2)) := by
  obtain ⟨hw1, hp1, hm1⟩ := isAsciiDigit_props c1 h1
  obtain ⟨hw2, hp2, hm2⟩ := isAsciiDigit_props c2 h2
  have hstrip : pyStrip [c1, c2] = [c1, c2] := by
    apply pyStrip_eq_self
    intro c hc
    rcases List.mem_cons.mp hc with rfl | hc
    · exact hw1
    rcases List.mem_cons.mp hc with rfl | hc
    · exact hw2
    · exact absurd hc (List.not_mem_nil c)
  simp only [pyInt, hstrip]
  rw [if_neg hp1, if_neg hm1, pyDigitsVal_two c1 c2 h1 h2]
  rfl

/-- The `time` constructor succeeds inside the valid ranges. -/
lemma time_mk_valid (h m s : Nat) (hh : h ≤ 23) (hm : m ≤ 59) (hs : s ≤ 59) :
    time_mk (Int.ofNat h) (Int.ofNat m) (Int.ofNat s) = some ⟨h, m, s⟩ := by
  unfold time_mk
  rw [if_pos]
  · simp
  · refine ⟨?_, ?_, ?_, ?_, ?_, ?_⟩ <;> (simp only [Int.ofNat_eq_natCast]; omega)
/-- Stripping only removes characters. -/
lemma pyStrip_subset (l : List Char) : ∀ c ∈ pyStrip l, c ∈ l := by
  intro c hc
  unfold pyStrip at hc
  rw [List.mem_reverse] at hc
  have h1 := (List.dropWhile_sublist isPyWs).subset hc
  rw [List.mem_reverse] at h1
  exact (List.dropWhile_sublist isPyWs).subset h1

/-- Any colon-free input (in particular a bare `HHMM` digit string)
parses to `none`: `split(":")` yields a single part, which matches neither
the 2-part nor the 3-part branch. -/
lemma parse_no_colon (str : String) (h : ∀ c ∈ str.data, c ≠ ':') :
    parse_hms (some str) = none := by
  by_cases he : str = ""
  · subst he
    rfl
  · simp only [parse_hms]
    rw [if_neg he]
    by_cases hs : pyStrip str.data = []
    · rw [if_pos hs]
    · rw [if_neg hs]
      have hnosep : ∀ c ∈ pyStrip str.data, c ≠ ':' :=
        fun c hc => h c (pyStrip_subset str.data c hc)
      rw [pySplit_no_sep ':' _ hnosep]

/-- A well-formed `HH:MM` string parses to the corresponding time. -/
lemma parse_fmtHM (h m : Nat) (hh : h ≤ 23) (hm : m ≤ 59) :
    parse_hms (some (fmtHM h m)) = some ⟨h, m, 0⟩ := by
  obtain ⟨d1i, d1v, d1c, -, -, d1w⟩ := digitChar_spec (h / 10) (by omega)
  obtain ⟨d2i, d2v, d2c, -, -, d2w⟩ := digitChar_spec (h % 10) (by omega)
  obtain ⟨d3i, d3v, d3c, -, -, d3w⟩ := digitChar_spec (m / 10) (by omega)
  obtain ⟨d4i, d4v, d4c, -, -, d4w⟩ := digitChar_spec (m % 10) (by omega)
  have hdata : (fmtHM h m).data
      = [digitChar (h / 10), digitChar (h % 10), ':', digitChar (m / 10), digitChar (m % 10)] := rfl
  have hne : fmtHM h m ≠ "" := by
    intro hcon
    have h2 := congrArg String.data hcon
    rw [hdata] at h2
    have h3 : ("" : String).data = [] := rfl
    rw [h3] at h2
    exact absurd h2 (by simp)
  have hstrip : pyStrip (fmtHM h m).data = (fmtHM h m).data := by
    apply pyStrip_eq_self
    rw [hdata]
    intro c hc
    rcases List.mem_cons.mp hc with rfl | hc
    · exact d1w
    rcases List.mem_cons.mp hc with rfl | hc
    · exact d2w
    rcases List.mem_cons.mp hc with rfl | hc
    · decide
    rcases List.mem_cons.mp hc with rfl | hc
    · exact d3w
    rcases List.mem_cons.mp hc with rfl | hc
    · exact d4w
    · exact absurd hc (List.not_mem_nil c)
  have hsplit : pySplit ':' [digitChar (h / 10), digitChar (h % 10), ':',
        digitChar (m / 10), digitChar (m % 10)]
      = [[digitChar (h / 10), digitChar (h % 10)], [digitChar (m / 10), digitChar (m % 10)]] := by
    have e1 : [digitChar (h / 10), digitChar (h % 10), ':', digitChar (m / 10), digitChar (m % 10)]
        = [digitChar (h / 10), digitChar (h % 10)]
            ++ ':' :: [digitChar (m / 10), digitChar (m % 10)] := rfl
    rw [e1, pySplit_append ':' _ _ ?ha, pySplit_no_sep ':' _ ?hb]
    case ha =>
      intro c hc
      rcases List.mem_cons.mp hc with rfl | hc
      · exact d1c
      rcases List.mem_cons.mp hc with rfl | hc
      · exact d2c
      · exact absurd hc (List.not_mem_nil c)
    case hb =>
      intro c hc
      rcases List.mem_cons.mp hc with rfl | hc
      · exact d3c
      rcases List.mem_cons.mp hc with rfl | hc
      · exact d4c
      · exact absurd hc (List.not_mem_nil c)
  simp only [parse_hms]
  rw [if_neg hne, hstrip, hdata]
  rw [if_neg (by simp), hsplit]
  simp only [pyInt_two _ _ d1i d2i, pyInt_two _ _ d3i d4i, Option.some_bind]
  rw [d1v, d2v, d3v, d4v]
  have e2 : h / 10 * 10 + h % 10 = h := by omega
  have e3 : m / 10 * 10 + m % 10 = m := by omega
  rw [e2, e3]
  exact time_mk_valid h m 0 hh hm (by omega)
/-- A well-formed `HH:MM:SS` string parses to the corresponding time. -/
lemma parse_fmtHMS (h m s : Nat) (hh : h ≤ 23) (hm : m ≤ 59) (hs : s ≤ 59) :
    parse_hms (some (fmtHMS h m s)) = some ⟨h, m, s⟩ := by
  obtain ⟨d1i, d1v, d1c, -, -, d1w⟩ := digitChar_spec (h / 10) (by omega)
  obtain ⟨d2i, d2v, d2c, -, -, d2w⟩ := digitChar_spec (h % 10) (by omega)
  obtain ⟨d3i, d3v, d3c, -, -, d3w⟩ := digitChar_spec (m / 10) (by omega)
  obtain ⟨d4i, d4v, d4c, -, -, d4w⟩ := digitChar_spec (m % 10) (by omega)
  obtain ⟨d5i, d5v, d5c, -, -, d5w⟩ := digitChar_spec (s / 10) (by omega)
  obtain ⟨d6i, d6v, d6c, -, -, d6w⟩ := digitChar_spec (s % 10) (by omega)
  have hdata : (fmtHMS h m s).data
      = [digitChar (h / 10), digitChar (h % 10), ':', digitChar (m / 10), digitChar (m % 10),
         ':', digitChar (s / 10), digitChar (s % 10)] := rfl
  have hne : fmtHMS h m s ≠ "" := by
    intro hcon
    have h2 := congrArg String.data hcon
    rw [hdata] at h2
    have h3 : ("" : String).data = [] := rfl
    rw [h3] at h2
    exact absurd h2 (by simp)
  have hstrip : pyStrip (fmtHMS h m s).data = (fmtHMS h m s).data := by
    apply pyStrip_eq_self
    rw [hdata]
    intro c hc
    rcases List.mem_cons.mp hc with rfl | hc
    · exact d1w
    rcases List.mem_cons.mp hc with rfl | hc
    · exact d2w
    rcases List.mem_cons.mp hc with rfl | hc
    · decide
    rcases List.mem_cons.mp hc with rfl | hc
    · exact d3w
    rcases List.mem_cons.mp hc with rfl | hc
    · exact d4w
    rcases List.mem_cons.mp hc with rfl | hc
    · decide
    rcases List.mem_cons.mp hc with rfl | hc
    · exact d5w
    rcases List.mem_cons.mp hc with rfl | hc
    · exact d6w
    · exact absurd hc (List.not_mem_nil c)
  have hsplit : pySplit ':' [digitChar (h / 10), digitChar (h % 10), ':',
        digitChar (m / 10), digitChar (m % 10), ':', digitChar (s / 10), digitChar (s % 10)]
      = [[digitChar (h / 10), digitChar (h % 10)], [digitChar (m / 10), digitChar (m % 10)],
         [digitChar (s / 10), digitChar (s % 10)]] := by
    have e1 : [digitChar (h / 10), digitChar (h % 10), ':', digitChar (m / 10),
          digitChar (m % 10), ':', digitChar (s / 10), digitChar (s % 10)]
        = [digitChar (h / 10), digitChar (h % 10)]
            ++ ':' :: ([digitChar (m / 10), digitChar (m % 10)]
              ++ ':' :: [digitChar (s / 10), digitChar (s % 10)]) := rfl
    rw [e1, pySplit_append ':' _ _ ?ha, pySplit_append ':' _ _ ?hb, pySplit_no_sep ':' _ ?hc]
    case ha =>
      intro c hc
      rcases List.mem_cons.mp hc with rfl | hc
      · exact d1c
      rcases List.mem_cons.mp hc with rfl | hc
      · exact d2c
      · exact absurd hc (List.not_mem_nil c)
    case hb =>
      intro c hc
      rcases List.mem_cons.mp hc with rfl | hc
      · exact d3c
      rcases List.mem_cons.mp hc with rfl | hc
      · exact d4c
      · exact absurd hc (List.not_mem_nil c)
    case hc =>
      intro c hc
      rcases List.mem_cons.mp hc with rfl | hc
      · exact d5c
      rcases List.mem_cons.mp hc with rfl | hc
      · exact d6c
      · exact absurd hc (List.not_mem_nil c)
  simp only [parse_hms]
  rw [if_neg hne, hstrip, hdata]
  rw [if_neg (by simp), hsplit]
  simp only [pyInt_two _ _ d1i d2i, pyInt_two _ _ d3i d4i, pyInt_two _ _ d5i d6i,
    Option.some_bind]
  rw [d1v, d2v, d3v, d4v, d5v, d6v]
  have e2 : h / 10 * 10 + h % 10 = h := by omega
  have e3 : m / 10 * 10 + m % 10 = m := by omega
  have e4 : s / 10 * 10 + s % 10 = s := by omega
  rw [e2, e3, e4]
  exact time_mk_valid h m s hh hm hs

/-- C4 (amended): the clock parser accepts colon-separated `HH:MM` and
`HH:MM:SS` strings, returning the corresponding wall-clock time of day, and
never raises (it is a total function into `Option`); but a bare four-digit
`HHMM` string — like every colon-free input — returns the not-present
result: the `HHMM` form is normalized to `HH:MM` upstream (by the
enrichment's `_hhmm_to_hh_colon_mm`), not accepted by the parser itself. -/
theorem C4_amended :
    (∀ h m : Nat, h ≤ 23 → m ≤ 59 → parse_hms (some (fmtHM h m)) = some ⟨h, m, 0⟩)
    ∧ (∀ h m s : Nat, h ≤ 23 → m ≤ 59 → s ≤ 59 →
        parse_hms (some (fmtHMS h m s)) = some ⟨h, m, s⟩)
    ∧ (∀ str : String, (∀ c ∈ str.data, c ≠ ':') → parse_hms (some str) = none)
    ∧ parse_hms none = none :=
  ⟨parse_fmtHM, parse_fmtHMS, parse_no_colon, rfl⟩

/-- C4 (counterexample): the valid four-digit `HHMM` string `"0943"`
returns `none`, not the `9:43` time the claim requires. -/
theorem C4_counterexample :
    parse_hms (some "0943") = none ∧ (none : Option PyTime) ≠ some ⟨9, 43, 0⟩ := by
  decide

/-- C4 (witness): `"09:43"` parses to 9:43:00. -/
theorem C4_witness : parse_hms (some "09:43") = some ⟨9, 43, 0⟩ := by
  have h := C4_amended.1 9 43 (by norm_num) (by norm_num)
  have he : fmtHM 9 43 = "09:43" := by decide
  rwa [he] at h

end MasPhD
